import Mathlib

set_option maxHeartbeats 1000000

/-
Verification of the MCP client core (agent/mcp_client.py): a registry of
child-process servers spoken to over line-delimited JSON-RPC. The embedding
models the client state (server map, request-id counter) explicitly, the
peer of each server as a script of output lines, and Python exceptions as
an Except value carrying the exception message string. A ghost log of all
requests written to any server (sentLog) and a ghost per-entry flag
recording handshake completion (handshakeOk) are carried so that I/O and
spec-level readiness can be stated; no operation of the code reads them.
-/

/-- JSON values as decoded from one line of the wire. Numbers are modelled as
integers (no float appears in any exchange the claims mention); objects keep
field order as association lists, as the decoder produces dictionaries. -/
inductive Json where
  | null
  | bool (b : Bool)
  | num (n : Int)
  | str (s : String)
  | arr (elems : List Json)
  | obj (fields : List (String × Json))

/-- Lookup of a key in a decoded JSON object (first matching field). -/
def dictLookupJ (fs : List (String × Json)) (k : String) : Option Json :=
  (fs.find? (fun p => p.1 == k)).map (fun p => p.2)

/-- Executable substring test on strings, modelling the Python membership
test of one string in another. -/
def strContainsSub (s pat : String) : Bool :=
  s.data.tails.any (fun t => pat.data.isPrefixOf t)

/-- Python membership test `k in v` for a string key against a decoded JSON
value: key lookup on a dictionary, element equality on a list (a string is
equal only to the same string), substring test on a string, and a TypeError
for non-iterable values. Error strings model the CPython messages. -/
def pyContainsKey (v : Json) (k : String) : Except String Bool :=
  match v with
  | .obj fs => .ok (fs.any (fun p => p.1 == k))
  | .arr xs => .ok (xs.any (fun x => match x with | .str s => s == k | _ => false))
  | .str s => .ok (strContainsSub s k)
  | .num _ => .error "argument of type \x27int\x27 is not iterable"
  | .bool _ => .error "argument of type \x27bool\x27 is not iterable"
  | .null => .error "argument of type \x27NoneType\x27 is not iterable"

/-- Python subscript `v[k]` with a string key: dictionary lookup (KeyError if
missing), TypeError on lists, strings and other values. -/
def pyGetItem (v : Json) (k : String) : Except String Json :=
  match v with
  | .obj fs =>
    match dictLookupJ fs k with
    | some x => .ok x
    | none => .error ("KeyError: \x27" ++ k ++ "\x27")
  | .arr _ => .error "list indices must be integers or slices, not str"
  | .str _ => .error "string indices must be integers"
  | _ => .error "object is not subscriptable"

/-- Python attribute call `t.get(k)` used on tool descriptors: succeeds on a
dictionary (returning the value or None), raises AttributeError otherwise. -/
def pyGetAttrGet (t : Json) (k : String) : Except String (Option Json) :=
  match t with
  | .obj fs => .ok (dictLookupJ fs k)
  | _ => .error "object has no attribute \x27get\x27"

/-- The list comprehension over the stored available_tools value: iterating a
list calls get on each element; iterating a dictionary yields its string keys
(whose get raises unless the dictionary is empty); iterating a string yields
characters; other values are not iterable. -/
def toolNamesOf : Json → Except String (List (Option Json))
  | .arr xs => xs.mapM (fun t => pyGetAttrGet t "name")
  | .obj fs =>
    match fs with
    | [] => .ok []
    | _ => .error "\x27str\x27 object has no attribute \x27get\x27"
  | .str s => if s.isEmpty then .ok [] else .error "\x27str\x27 object has no attribute \x27get\x27"
  | _ => .error "argument of type is not iterable"

/-- Membership of the requested tool name in the extracted name list: a plain
string compares equal only to an equal string, never to None or to another
kind of value. This is the case-sensitive exact match of the source. -/
def namesContain (names : List (Option Json)) (t : String) : Bool :=
  names.any (fun n => match n with | some (Json.str s) => s == t | _ => false)

mutual

/-- Python repr of a decoded JSON value, as the f-string formatting of the
available-tool-name list renders it. String quoting is modelled as a plain
single-quote wrap, which is exact for strings holding no characters that
repr escapes. -/
def pyReprJson : Json → String
  | .null => "None"
  | .bool b => if b then "True" else "False"
  | .num n => toString n
  | .str s => "\x27" ++ s ++ "\x27"
  | .arr xs => "[" ++ pyReprList xs ++ "]"
  | .obj fs => "\x7b" ++ pyReprFields fs ++ "\x7d"

/-- Comma-joined repr of list elements. -/
def pyReprList : List Json → String
  | [] => ""
  | [x] => pyReprJson x
  | x :: y :: ys => pyReprJson x ++ ", " ++ pyReprList (y :: ys)

/-- Comma-joined repr of dictionary fields. -/
def pyReprFields : List (String × Json) → String
  | [] => ""
  | [(k, v)] => "\x27" ++ k ++ "\x27: " ++ pyReprJson v
  | (k, v) :: f :: fs => "\x27" ++ k ++ "\x27: " ++ pyReprJson v ++ ", " ++ pyReprFields (f :: fs)

end

/-- Python str() of a value, used when a remote error message is formatted
into an exception text: a string renders as itself, other values as repr. -/
def pyStr : Json → String
  | .str s => s
  | j => pyReprJson j

/-- Python repr of one element of the available-tool-name list (None or a
JSON value). -/
def pyReprName : Option Json → String
  | none => "None"
  | some j => pyReprJson j

/-- Comma-joined repr of the name list, as str() of a Python list renders its
elements between the brackets. -/
def pyReprNames : List (Option Json) → String
  | [] => ""
  | [x] => pyReprName x
  | x :: y :: ys => pyReprName x ++ ", " ++ pyReprNames (y :: ys)

/-- Message of the tool-unavailable error raised by call_tool, including the
rendered list of currently known tool names. -/
def toolUnavailableMsg (tool server : String) (names : List (Option Json)) : String :=
  "Tool \x27" ++ tool ++ "\x27 not available on server \x27" ++ server ++
    "\x27. Available tools: [" ++ pyReprNames names ++ "]"

/-- Wrapper message of the except clause of call_tool. -/
def callToolFailMsg (tool server inner : String) : String :=
  "Failed to call tool \x27" ++ tool ++ "\x27 on server \x27" ++ server ++ "\x27: " ++ inner

/-- Wrapper message of the except clause of _initialize_server. -/
def initFailMsg (name inner : String) : String :=
  "Failed to initialize server \x27" ++ name ++ "\x27: " ++ inner

/-- Wrapper message of the except clause of connect_server. -/
def connectFailMsg (name inner : String) : String :=
  "Failed to connect to MCP server \x27" ++ name ++ "\x27: " ++ inner

/-- Message printed when the shutdown of one server raises during
disconnect_all. -/
def disconnectErrMsg (name inner : String) : String :=
  "Error disconnecting from server \x27" ++ name ++ "\x27: " ++ inner

/-- The value of response error message lookup with default, as the source
formats `response [error] .get (message, Unknown error)` into the raised
text. -/
def remoteMessage (efs : List (String × Json)) : String :=
  match dictLookupJ efs "message" with
  | some v => pyStr v
  | none => "Unknown error"

/-- Abstract state of one spawned child process as visible to the client:
exit status, pipe availability, the script of lines the peer will emit on
its standard output (an error entry stands for a line that is not valid
JSON, carrying the decode-error text), and its behavior during teardown
(how long after stdin closes it exits naturally, and whether the close or
terminate calls raise). -/
structure ProcessState where
  returncode : Option Int := none
  stdinExists : Bool := true
  stdinOpen : Bool := true
  pendingOutput : List (Except String Json) := []
  exitDelayAfterClose : Option Nat := some 0
  closeRaises : Option String := none
  terminateRaises : Option String := none

/-- One entry of the server map, with the fields the source stores at
connect time. handshakeOk is ghost instrumentation absent from the source
dictionary: it records whether _initialize_server completed for this entry
(the Ready status of the specification); no operation reads it. -/
structure ServerEntry where
  process : ProcessState
  command : String
  args : List String
  availableTools : Json
  handshakeOk : Bool

/-- A JSON-RPC request as built by the source: a constant protocol tag, an
integer id, a method name and a parameter object. -/
structure RpcRequest where
  jsonrpc : String := "2.0"
  id : Nat
  method : String
  params : Json

/-- Configuration dictionary for one server: the args and env keys read with
defaults by connect_server. -/
structure MCPConfig where
  args : List String := []
  env : List (String × String) := []

/-- State of the MCP client: the name-indexed server map and the request-id
counter, both fields of the one client object. sentLog is a ghost record of
every request written to any server process, in write order; no operation
reads it. -/
structure MCPClient where
  servers : List (String × ServerEntry) := []
  request_id : Nat := 0
  sentLog : List (String × RpcRequest) := []

/-- A fresh client, as __init__ builds it: empty map, counter zero. -/
def emptyMCP : MCPClient := {}

/-- Lookup in the server map (dictionary get by name). -/
def dictLookup (d : List (String × ServerEntry)) (k : String) : Option ServerEntry :=
  (d.find? (fun p => p.1 == k)).map (fun p => p.2)

/-- Dictionary assignment: overwrite in place when the key exists, append
otherwise, as a Python dictionary keeps insertion order. -/
def dictInsert (d : List (String × ServerEntry)) (k : String) (v : ServerEntry) :
    List (String × ServerEntry) :=
  if d.any (fun p => p.1 == k) then
    d.map (fun p => if p.1 == k then (k, v) else p)
  else d ++ [(k, v)]

/-- In-place mutation of the entry stored under a name (the source mutates
the dictionary object held in the map). -/
def modifyServer (c : MCPClient) (name : String) (f : ServerEntry → ServerEntry) : MCPClient :=
  { c with servers := c.servers.map (fun e => if e.1 == name then (e.1, f e.2) else e) }

/-- The _next_request_id method: increment the client counter, return the
new value. -/
def next_request_id (c : MCPClient) : Nat × MCPClient :=
  let r := c.request_id + 1
  (r, { c with request_id := r })

/-- The _send_request method: look the server up, write one encoded line to
its stdin (logged in sentLog), then read one line from its stdout. An empty
script is end of file (the server closed the connection); an error line is a
JSON decode failure. Exceptions raised in the body are rewrapped by the
except clauses of the source. The state is returned on every path, since a
raised exception does not undo the write that preceded it. -/
def send_request (name : String) (req : RpcRequest) (c : MCPClient) :
    Except String Json × MCPClient :=
  match dictLookup c.servers name with
  | none => (.error ("Server \x27" ++ name ++ "\x27 not found"), c)
  | some server =>
    if server.process.stdinOpen then
      let c1 := { c with sentLog := c.sentLog ++ [(name, req)] }
      match server.process.pendingOutput with
      | [] => (.error "Communication error with server: Server closed connection", c1)
      | line :: rest =>
        let c2 := modifyServer c1 name
          (fun e => { e with process := { e.process with pendingOutput := rest } })
        match line with
        | .error e => (.error ("Invalid JSON response from server: " ++ e), c2)
        | .ok j => (.ok j, c2)
    else
      (.error "Communication error with server: write to closed pipe", c)

/-- Parameter object of the initialize request, with the fixed protocol
version and static client identity of the source. -/
def initParams : Json :=
  .obj [("protocolVersion", .str "2024-11-05"),
        ("capabilities", .obj []),
        ("clientInfo", .obj [("name", .str "claudius"), ("version", .str "0.1.0")])]

/-- The initialize request carrying a given id. -/
def initRequest (id : Nat) : RpcRequest :=
  { id := id, method := "initialize", params := initParams }

/-- The tools/list request carrying a given id. -/
def toolsListRequest (id : Nat) : RpcRequest :=
  { id := id, method := "tools/list", params := .obj [] }

/-- The tools/call request carrying a given id, tool name and arguments. -/
def toolsCallRequest (id : Nat) (tool : String) (args : Json) : RpcRequest :=
  { id := id, method := "tools/call",
    params := .obj [("name", .str tool), ("arguments", args)] }

/-- The _initialize_server method: send initialize (response received and
discarded), send tools/list, and if the response has a result field whose
value has a tools member, store that value as the available tools of the
entry. Any exception of the body is rewrapped with the initialize-failure
text; the not-found check precedes the try block and is not wrapped. -/
def initialize_server (name : String) (c : MCPClient) : Except String Unit × MCPClient :=
  match dictLookup c.servers name with
  | none => (.error ("Server \x27" ++ name ++ "\x27 not found"), c)
  | some _ =>
    let (id1, c1) := next_request_id c
    match send_request name (initRequest id1) c1 with
    | (.error e, c2) => (.error (initFailMsg name e), c2)
    | (.ok _, c2) =>
      let (id2, c3) := next_request_id c2
      match send_request name (toolsListRequest id2) c3 with
      | (.error e, c4) => (.error (initFailMsg name e), c4)
      | (.ok toolsResp, c4) =>
        match pyContainsKey toolsResp "result" with
        | .error e => (.error (initFailMsg name e), c4)
        | .ok false => (.ok (), c4)
        | .ok true =>
          match pyGetItem toolsResp "result" with
          | .error e => (.error (initFailMsg name e), c4)
          | .ok res =>
            match pyContainsKey res "tools" with
            | .error e => (.error (initFailMsg name e), c4)
            | .ok false => (.ok (), c4)
            | .ok true =>
              match pyGetItem res "tools" with
              | .error e => (.error (initFailMsg name e), c4)
              | .ok tools =>
                (.ok (), modifyServer c4 name (fun e => { e with availableTools := tools }))

/-- The connect_server method: spawn the process (the spawn outcome, and the
behavior of the spawned process, are inputs from the environment), store the
entry under the name, then run the handshake. Every exception of the body is
rewrapped with the connect-failure text. The entry is stored before the
handshake and no path removes it. On handshake success the ghost handshakeOk
flag of the entry is set. -/
def connect_server (name command : String) (config : MCPConfig)
    (spawn : Except String ProcessState) (c : MCPClient) :
    Except String Unit × MCPClient :=
  match spawn with
  | .error e => (.error (connectFailMsg name e), c)
  | .ok process =>
    match initialize_server name
        { c with servers := dictInsert c.servers name ⟨process, command, config.args, Json.arr [], false⟩ } with
    | (.error e, c2) => (.error (connectFailMsg name e), c2)
    | (.ok _, c2) => (.ok (), modifyServer c2 name (fun e => { e with handshakeOk := true }))

/-- The call_tool method. The not-connected check, the name-list
comprehension and the availability check all precede the try block, so their
exceptions are not rewrapped and nothing has been sent when they fire. The
body sends tools/call and dispatches on the response: a result member is
returned, an error member raises with the remote message, anything else is
returned raw; every exception of the body is rewrapped with the
call-failure text. -/
def call_tool (server_name tool_name : String) (args : Json) (c : MCPClient) :
    Except String Json × MCPClient :=
  match dictLookup c.servers server_name with
  | none => (.error ("Server \x27" ++ server_name ++ "\x27 not connected"), c)
  | some server =>
    match toolNamesOf server.availableTools with
    | .error e => (.error e, c)
    | .ok names =>
      if namesContain names tool_name then
        let (rid, c1) := next_request_id c
        match send_request server_name (toolsCallRequest rid tool_name args) c1 with
        | (.error e, c2) => (.error (callToolFailMsg tool_name server_name e), c2)
        | (.ok resp, c2) =>
          match pyContainsKey resp "result" with
          | .error e => (.error (callToolFailMsg tool_name server_name e), c2)
          | .ok true =>
            match pyGetItem resp "result" with
            | .ok v => (.ok v, c2)
            | .error e => (.error (callToolFailMsg tool_name server_name e), c2)
          | .ok false =>
            match pyContainsKey resp "error" with
            | .error e => (.error (callToolFailMsg tool_name server_name e), c2)
            | .ok true =>
              match pyGetItem resp "error" with
              | .error e => (.error (callToolFailMsg tool_name server_name e), c2)
              | .ok errv =>
                match errv with
                | .obj efs =>
                  (.error (callToolFailMsg tool_name server_name
                    ("Tool call error: " ++ remoteMessage efs)), c2)
                | _ => (.error (callToolFailMsg tool_name server_name
                    "object has no attribute \x27get\x27"), c2)
            | .ok false => (.ok resp, c2)
      else
        (.error (toolUnavailableMsg tool_name server_name names), c)

/-- The get_available_tools method. -/
def get_available_tools (server_name : String) (c : MCPClient) : Except String Json :=
  match dictLookup c.servers server_name with
  | none => .error ("Server \x27" ++ server_name ++ "\x27 not found")
  | some sv => .ok sv.availableTools

/-- The is_connected method: absent name is false, otherwise the process has
no returncode yet. No status or handshake information is consulted. -/
def is_connected (server_name : String) (c : MCPClient) : Bool :=
  match dictLookup c.servers server_name with
  | none => false
  | some server => server.process.returncode.isNone

/-- Readiness as the specification words it, for comparison with the code:
delegation to the Connection readiness check, which is true exactly when the
status is Ready (here: the handshake completed, recorded by the ghost flag)
and the transport reports alive. Modelled from the spec. -/
def isConnectedSpec (server_name : String) (c : MCPClient) : Bool :=
  match dictLookup c.servers server_name with
  | none => false
  | some server => server.handshakeOk && server.process.returncode.isNone

/-- Steps of the per-server teardown, recorded as a trace: closing stdin,
the bounded wait, the termination signal, the unconditional wait. -/
inductive ShutdownAction where
  | closeStdin
  | waitedTimeout
  | terminated
  | waitedFinal
deriving DecidableEq

/-- The graceful-shutdown window of disconnect_all, 2.0 seconds, in
milliseconds. -/
def gracefulTimeoutMs : Nat := 2000

/-- Whether the process exits naturally within the window after its stdin is
closed. -/
def exitsWithin (timeoutMs : Nat) (p : ProcessState) : Bool :=
  match p.exitDelayAfterClose with
  | some d => d ≤ timeoutMs
  | none => false

/-- The per-server body of the disconnect_all loop: close stdin when the
handle exists, wait up to the window; on timeout terminate and wait
unconditionally. The returned value is the caught-or-not exception outcome
and the trace of steps performed before any raise. -/
def shutdownOne (timeoutMs : Nat) (p : ProcessState) :
    Except String Unit × List ShutdownAction :=
  let closeActs := if p.stdinExists then [ShutdownAction.closeStdin] else []
  match (if p.stdinExists then p.closeRaises else none) with
  | some m => (.error m, closeActs)
  | none =>
    if exitsWithin timeoutMs p then
      (.ok (), closeActs ++ [ShutdownAction.waitedTimeout])
    else
      match p.terminateRaises with
      | some m => (.error m, closeActs ++ [ShutdownAction.waitedTimeout, ShutdownAction.terminated])
      | none =>
        (.ok (), closeActs ++ [ShutdownAction.waitedTimeout, ShutdownAction.terminated,
          ShutdownAction.waitedFinal])

/-- Report for one server of the disconnect_all pass: its name, the steps
taken, and the printed message when its shutdown raised (the exception is
caught there, never propagated). -/
structure ShutdownReport where
  name : String
  actions : List ShutdownAction
  errorPrinted : Option String

/-- The report the loop body produces for one entry. -/
def shutdownReportOf (timeoutMs : Nat) (n : String) (sv : ServerEntry) : ShutdownReport :=
  { name := n
    actions := (shutdownOne timeoutMs sv.process).2
    errorPrinted :=
      match (shutdownOne timeoutMs sv.process).1 with
      | .ok _ => none
      | .error m => some (disconnectErrMsg n m) }

/-- The disconnect_all method: run the per-server shutdown over every entry,
catching and reporting each exception, then clear the map unconditionally.
The total return type records that no exception escapes. -/
def disconnect_all (c : MCPClient) : MCPClient × List ShutdownReport :=
  ({ c with servers := [] },
   c.servers.map (fun e => shutdownReportOf gracefulTimeoutMs e.1 e.2))

/-- Client operations as invoked by callers, to quantify over whole usage
histories: a connect attempt (with the spawn outcome the environment gave),
a tool call, and a full teardown. -/
inductive ClientOp where
  | connectOp (name command : String) (config : MCPConfig) (spawn : Except String ProcessState)
  | callToolOp (server tool : String) (args : Json)
  | disconnectAllOp

/-- State reached after one operation. -/
def runOp (c : MCPClient) : ClientOp → MCPClient
  | .connectOp n cmd cfg sp => (connect_server n cmd cfg sp c).2
  | .callToolOp s t a => (call_tool s t a c).2
  | .disconnectAllOp => (disconnect_all c).1

/-- State reached after a sequence of operations. -/
def runOps (ops : List ClientOp) (c : MCPClient) : MCPClient :=
  ops.foldl runOp c

/-- Request ids carried by the lines written so far, in write order. -/
def idsOf (c : MCPClient) : List Nat :=
  c.sentLog.map (fun e => e.2.id)

/-- Truth value of an Except being the error case. -/
def exceptIsError {α : Type} : Except String α → Bool
  | .error _ => true
  | .ok _ => false

/-- Containment of one string inside another, used to state that an error
message carries a given name. -/
def ContainsSubstr (s pat : String) : Prop := ∃ u v : String, s = u ++ (pat ++ v)

theorem containsSubstr_append_left (a : String) {s pat : String}
    (h : ContainsSubstr s pat) : ContainsSubstr (a ++ s) pat := by
  obtain ⟨u, v, rfl⟩ := h
  exact ⟨a ++ u, v, by rw [String.append_assoc]⟩

theorem containsSubstr_append_right (b : String) {s pat : String}
    (h : ContainsSubstr s pat) : ContainsSubstr (s ++ b) pat := by
  obtain ⟨u, v, rfl⟩ := h
  exact ⟨u, v ++ b, by simp [String.append_assoc]⟩

theorem containsSubstr_suffix (a pat : String) : ContainsSubstr (a ++ pat) pat :=
  ⟨a, "", by rw [String.append_empty]⟩

theorem isError_ne_ok {α : Type} (e : Except String α) (v : α)
    (h : exceptIsError e = true) : e ≠ Except.ok v := by
  cases e with
  | ok w => simp [exceptIsError] at h
  | error m => intro hc; cases hc

theorem namesContain_iff (names : List (Option Json)) (t : String) :
    namesContain names t = true ↔ some (Json.str t) ∈ names := by
  unfold namesContain
  rw [List.any_eq_true]
  constructor
  · rintro ⟨n, hn, hm⟩
    cases n with
    | none => simp at hm
    | some j =>
      cases j with
      | str s =>
        simp only [beq_iff_eq] at hm
        subst hm; exact hn
      | null => simp at hm
      | bool b => simp at hm
      | num m => simp at hm
      | arr xs => simp at hm
      | obj fs => simp at hm
  · intro h
    exact ⟨some (Json.str t), h, by simp⟩

theorem dictLookup_map_update (d : List (String × ServerEntry)) (n : String)
    (f : ServerEntry → ServerEntry) :
    dictLookup (d.map (fun e => if e.1 == n then (e.1, f e.2) else e)) n
      = (dictLookup d n).map f := by
  induction d with
  | nil => rfl
  | cons x xs ih =>
    by_cases hx : x.1 == n
    · simp only [List.map_cons, if_pos hx]
      unfold dictLookup
      simp [List.find?, hx]
    · simp only [List.map_cons, if_neg hx]
      unfold dictLookup at ih ⊢
      simp only [List.find?, show (x.1 == n) = false by simpa using hx]
      exact ih

theorem dictLookup_modifyServer_self (c : MCPClient) (n : String)
    (f : ServerEntry → ServerEntry) :
    dictLookup (modifyServer c n f).servers n = (dictLookup c.servers n).map f :=
  dictLookup_map_update c.servers n f

theorem dictLookup_dictInsert_self (d : List (String × ServerEntry)) (k : String)
    (v : ServerEntry) :
    dictLookup (dictInsert d k v) k = some v := by
  unfold dictInsert
  by_cases h : d.any (fun p => p.1 == k) = true
  · rw [if_pos h]
    induction d with
    | nil => simp at h
    | cons x xs ih =>
      by_cases hx : x.1 == k
      · simp only [List.map_cons, if_pos hx]
        unfold dictLookup
        simp [List.find?]
      · simp only [List.any_cons, Bool.or_eq_true] at h
        rcases h with h | h
        · exact absurd h hx
        · simp only [List.map_cons, if_neg hx]
          unfold dictLookup at ih ⊢
          simp only [List.find?, show (x.1 == k) = false by simpa using hx]
          exact ih h
  · rw [if_neg h]
    induction d with
    | nil => simp [dictLookup, List.find?]
    | cons x xs ih =>
      simp only [List.any_cons, Bool.or_eq_true, not_or] at h
      unfold dictLookup at ih ⊢
      rw [List.cons_append]
      simp only [List.find?, show (x.1 == k) = false by simpa using h.1]
      exact ih (by simpa using h.2)

theorem anyKey_eq_isSome (fs : List (String × Json)) (k : String) :
    fs.any (fun p => p.1 == k) = (dictLookupJ fs k).isSome := by
  induction fs with
  | nil => rfl
  | cons x xs ih =>
    by_cases hx : x.1 == k
    · simp [dictLookupJ, List.find?_cons_of_pos, hx]
    · unfold dictLookupJ at ih ⊢
      rw [List.any_cons, List.find?_cons_of_neg _ (by simpa using hx)]
      simp only [hx, Bool.false_or]
      exact ih

theorem containsSubstr_right_end (a b pat : String) : ContainsSubstr (a ++ (b ++ pat)) pat :=
  ⟨a ++ b, "", by simp [String.append_assoc, String.append_empty]⟩

theorem mem_pyReprNames (names : List (Option Json)) (nm : String)
    (h : some (Json.str nm) ∈ names) :
    ContainsSubstr (pyReprNames names) nm := by
  induction names with
  | nil => cases h
  | cons x xs ih =>
    rcases List.mem_cons.mp h with hx | hxs
    · subst hx
      cases xs with
      | nil =>
        exact ⟨"\x27", "\x27", by
          simp [pyReprNames, pyReprName, pyReprJson, String.append_assoc]⟩
      | cons y ys =>
        exact ⟨"\x27", "\x27, " ++ pyReprNames (y :: ys), by
          simp [pyReprNames, pyReprName, pyReprJson, String.append_assoc]⟩
    · cases xs with
      | nil => cases hxs
      | cons y ys =>
        have hrw : pyReprNames (x :: y :: ys)
            = (pyReprName x ++ ", ") ++ pyReprNames (y :: ys) := by
          simp [pyReprNames, String.append_assoc]
        rw [hrw]
        exact containsSubstr_append_left _ (ih hxs)

theorem toolUnavailableMsg_contains (tool server : String) (names : List (Option Json))
    (nm : String) (h : some (Json.str nm) ∈ names) :
    ContainsSubstr (toolUnavailableMsg tool server names) nm := by
  have hc := mem_pyReprNames names nm h
  exact containsSubstr_append_right "]" (containsSubstr_append_left
    ("Tool \x27" ++ tool ++ "\x27 not available on server \x27" ++ server ++
      "\x27. Available tools: [") hc)

/-- Invariant tying the ghost write log to the counter: every id written so
far is positive and at most the counter, and ids appear in strictly
increasing write order. -/
def ClientInv (c : MCPClient) : Prop :=
  List.Pairwise (· < ·) (idsOf c) ∧ ∀ i ∈ idsOf c, 1 ≤ i ∧ i ≤ c.request_id

theorem clientInv_empty : ClientInv emptyMCP := by
  constructor
  · exact List.Pairwise.nil
  · intro i hi
    simp [idsOf, emptyMCP] at hi

theorem send_request_state (n : String) (r : RpcRequest) (c : MCPClient) :
    (send_request n r c).2.request_id = c.request_id ∧
    ((send_request n r c).2.sentLog = c.sentLog ∨
     (send_request n r c).2.sentLog = c.sentLog ++ [(n, r)]) := by
  unfold send_request
  split
  · exact ⟨rfl, Or.inl rfl⟩
  · split
    · split
      · exact ⟨rfl, Or.inr rfl⟩
      · split
        · exact ⟨rfl, Or.inr rfl⟩
        · exact ⟨rfl, Or.inr rfl⟩
    · exact ⟨rfl, Or.inl rfl⟩

theorem clientInv_of_parts (c c2 : MCPClient) (h : ClientInv c)
    (hrid : c2.request_id = c.request_id + 1)
    (hlog : c2.sentLog = c.sentLog ∨
      ∃ n r, RpcRequest.id r = c.request_id + 1 ∧ c2.sentLog = c.sentLog ++ [(n, r)]) :
    ClientInv c2 := by
  obtain ⟨hp, hb⟩ := h
  rcases hlog with hlog | ⟨n, r, hrid2, hlog⟩
  · constructor
    · rw [show idsOf c2 = idsOf c by simp [idsOf, hlog]]
      exact hp
    · intro i hi
      rw [show idsOf c2 = idsOf c by simp [idsOf, hlog]] at hi
      obtain ⟨h1, h2⟩ := hb i hi
      exact ⟨h1, h2.trans (by rw [hrid]; exact Nat.le_succ _)⟩
  · have hids : idsOf c2 = idsOf c ++ [r.id] := by simp [idsOf, hlog]
    constructor
    · rw [hids, List.pairwise_append]
      refine ⟨hp, List.pairwise_singleton _ _, ?_⟩
      intro a ha b hbm
      rw [List.mem_singleton] at hbm
      subst hbm
      rw [hrid2]
      exact Nat.lt_succ_of_le (hb a ha).2
    · intro i hi
      rw [hids, List.mem_append] at hi
      rcases hi with hi | hi
      · obtain ⟨h1, h2⟩ := hb i hi
        exact ⟨h1, h2.trans (by rw [hrid]; exact Nat.le_succ _)⟩
      · rw [List.mem_singleton] at hi
        subst hi
        rw [hrid2, hrid]
        exact ⟨Nat.le_add_left 1 _, le_refl _⟩

theorem clientInv_send_fresh (c : MCPClient) (n : String) (r : RpcRequest)
    (h : ClientInv c) (hr : r.id = c.request_id + 1) :
    ClientInv (send_request n r { c with request_id := c.request_id + 1 }).2 := by
  obtain ⟨hrid, hlog⟩ := send_request_state n r { c with request_id := c.request_id + 1 }
  apply clientInv_of_parts c _ h
  · exact hrid
  · rcases hlog with hl | hl
    · exact Or.inl hl
    · exact Or.inr ⟨n, r, hr, hl⟩

theorem dictLookup_modifyServer_of (c : MCPClient) (n : String) (f : ServerEntry → ServerEntry)
    (e : ServerEntry) (hl : dictLookup c.servers n = some e) :
    dictLookup (modifyServer c n f).servers n = some (f e) := by
  rw [dictLookup_modifyServer_self, hl]
  rfl

theorem send_request_entry (n : String) (r : RpcRequest) (c : MCPClient) (e : ServerEntry)
    (hl : dictLookup c.servers n = some e) :
    ∃ p, dictLookup (send_request n r c).2.servers n = some { e with process := p } := by
  unfold send_request
  simp only [hl]
  split
  · split
    · exact ⟨e.process, hl⟩
    · split
      · exact ⟨_, dictLookup_modifyServer_of _ n _ e hl⟩
      · exact ⟨_, dictLookup_modifyServer_of _ n _ e hl⟩
  · exact ⟨e.process, hl⟩

theorem send_request_log_write (n : String) (r : RpcRequest) (c : MCPClient) (e : ServerEntry)
    (hl : dictLookup c.servers n = some e) (ho : e.process.stdinOpen = true) :
    (send_request n r c).2.sentLog = c.sentLog ++ [(n, r)] := by
  unfold send_request
  simp only [hl, ho, if_true]
  split
  · rfl
  · split
    · rfl
    · rfl

theorem initialize_server_entry_error (n : String) (c : MCPClient) (e : ServerEntry)
    (hl : dictLookup c.servers n = some e)
    (herr : exceptIsError (initialize_server n c).1 = true) :
    ∃ p, dictLookup (initialize_server n c).2.servers n = some { e with process := p } := by
  unfold initialize_server at herr ⊢
  simp only [hl, next_request_id] at herr ⊢
  rcases hs1 : send_request n (initRequest (c.request_id + 1))
      { c with request_id := c.request_id + 1 } with ⟨r1, c2⟩
  rw [hs1] at herr
  obtain ⟨p1, hp1⟩ := send_request_entry n (initRequest (c.request_id + 1))
    { c with request_id := c.request_id + 1 } e hl
  rw [hs1] at hp1
  have hp1x : dictLookup c2.servers n = some { e with process := p1 } := hp1
  cases r1 with
  | error e1 => exact ⟨p1, hp1x⟩
  | ok j1 =>
    simp only [] at herr ⊢
    rcases hs2 : send_request n (toolsListRequest (c2.request_id + 1))
        { c2 with request_id := c2.request_id + 1 } with ⟨r2, c4⟩
    rw [hs2] at herr
    obtain ⟨p2, hp2⟩ := send_request_entry n (toolsListRequest (c2.request_id + 1))
      { c2 with request_id := c2.request_id + 1 } { e with process := p1 } hp1x
    rw [hs2] at hp2
    have hp2x : dictLookup c4.servers n = some { e with process := p2 } := hp2
    cases r2 with
    | error e2 => exact ⟨p2, hp2x⟩
    | ok j2 =>
      simp only [] at herr ⊢
      cases hck : pyContainsKey j2 "result" with
      | error e3 => exact ⟨p2, hp2x⟩
      | ok b =>
        rw [hck] at herr
        cases b with
        | false => simp [exceptIsError] at herr
        | true =>
          simp only [] at herr ⊢
          cases hgi : pyGetItem j2 "result" with
          | error e4 => exact ⟨p2, hp2x⟩
          | ok res =>
            rw [hgi] at herr
            simp only [] at herr ⊢
            cases hck2 : pyContainsKey res "tools" with
            | error e5 => exact ⟨p2, hp2x⟩
            | ok b2 =>
              rw [hck2] at herr
              cases b2 with
              | false => simp [exceptIsError] at herr
              | true =>
                simp only [] at herr ⊢
                cases hgi2 : pyGetItem res "tools" with
                | error e6 => exact ⟨p2, hp2x⟩
                | ok tools =>
                  rw [hgi2] at herr
                  simp [exceptIsError] at herr

theorem initialize_server_log_head (n : String) (c : MCPClient) (e : ServerEntry)
    (hl : dictLookup c.servers n = some e) (ho : e.process.stdinOpen = true) :
    ∃ rest, (initialize_server n c).2.sentLog
      = c.sentLog ++ ((n, initRequest (c.request_id + 1)) :: rest) := by
  unfold initialize_server
  simp only [hl, next_request_id]
  rcases hs1 : send_request n (initRequest (c.request_id + 1))
      { c with request_id := c.request_id + 1 } with ⟨r1, c2⟩
  have hw0 := send_request_log_write n (initRequest (c.request_id + 1))
    { c with request_id := c.request_id + 1 } e hl ho
  rw [hs1] at hw0
  have hw : c2.sentLog = c.sentLog ++ [(n, initRequest (c.request_id + 1))] := hw0
  cases r1 with
  | error e1 => exact ⟨[], hw⟩
  | ok j1 =>
    simp only []
    rcases hs2 : send_request n (toolsListRequest (c2.request_id + 1))
        { c2 with request_id := c2.request_id + 1 } with ⟨r2, c4⟩
    obtain ⟨_, hlog2⟩ := send_request_state n (toolsListRequest (c2.request_id + 1))
      { c2 with request_id := c2.request_id + 1 }
    rw [hs2] at hlog2
    have hc4 : ∃ rest, c4.sentLog
        = c.sentLog ++ ((n, initRequest (c.request_id + 1)) :: rest) := by
      rcases hlog2 with h4 | h4
      · have h4x : c4.sentLog = c2.sentLog := h4
        exact ⟨[], by rw [h4x, hw]⟩
      · have h4x : c4.sentLog
            = c2.sentLog ++ [(n, toolsListRequest (c2.request_id + 1))] := h4
        refine ⟨[(n, toolsListRequest (c2.request_id + 1))], ?_⟩
        rw [h4x, hw, List.append_assoc]
        rfl
    obtain ⟨rest, hrest⟩ := hc4
    refine ⟨rest, ?_⟩
    cases r2 with
    | error e2 => exact hrest
    | ok j2 =>
      simp only []
      repeat' split
      all_goals exact hrest

theorem connect_server_log_head (n cmd : String) (cfg : MCPConfig) (p : ProcessState)
    (c : MCPClient) (ho : p.stdinOpen = true) :
    ∃ rest, (connect_server n cmd cfg (Except.ok p) c).2.sentLog
      = c.sentLog ++ ((n, initRequest (c.request_id + 1)) :: rest) := by
  unfold connect_server
  simp only []
  rcases hin : initialize_server n
      { c with servers := dictInsert c.servers n ⟨p, cmd, cfg.args, Json.arr [], false⟩ }
    with ⟨ri, c2⟩
  obtain ⟨rest, hrest⟩ := initialize_server_log_head n
    { c with servers := dictInsert c.servers n ⟨p, cmd, cfg.args, Json.arr [], false⟩ }
    ⟨p, cmd, cfg.args, Json.arr [], false⟩ (dictLookup_dictInsert_self c.servers n _) ho
  rw [hin] at hrest
  have hrx : c2.sentLog
      = c.sentLog ++ ((n, initRequest (c.request_id + 1)) :: rest) := hrest
  cases ri with
  | error e => exact ⟨rest, hrx⟩
  | ok u => exact ⟨rest, hrx⟩

theorem clientInv_initialize_server (n : String) (c : MCPClient) (h : ClientInv c) :
    ClientInv (initialize_server n c).2 := by
  unfold initialize_server
  cases hl : dictLookup c.servers n with
  | none => exact h
  | some e =>
    simp only [next_request_id]
    rcases hs1 : send_request n (initRequest (c.request_id + 1))
        { c with request_id := c.request_id + 1 } with ⟨r1, c2⟩
    have h2 : ClientInv c2 := by
      have hx := clientInv_send_fresh c n (initRequest (c.request_id + 1)) h rfl
      rw [hs1] at hx; exact hx
    cases r1 with
    | error e1 => exact h2
    | ok j1 =>
      simp only []
      rcases hs2 : send_request n (toolsListRequest (c2.request_id + 1))
          { c2 with request_id := c2.request_id + 1 } with ⟨r2, c4⟩
      have h4 : ClientInv c4 := by
        have hx := clientInv_send_fresh c2 n (toolsListRequest (c2.request_id + 1)) h2 rfl
        rw [hs2] at hx; exact hx
      cases r2 with
      | error e2 => exact h4
      | ok j2 =>
        simp only []
        repeat' split
        all_goals exact h4

theorem clientInv_connect_server (n cmd : String) (cfg : MCPConfig)
    (sp : Except String ProcessState) (c : MCPClient) (h : ClientInv c) :
    ClientInv (connect_server n cmd cfg sp c).2 := by
  unfold connect_server
  cases sp with
  | error e => exact h
  | ok p =>
    simp only []
    rcases hin : initialize_server n
        { c with servers := dictInsert c.servers n ⟨p, cmd, cfg.args, Json.arr [], false⟩ }
      with ⟨ri, c2⟩
    have h2 : ClientInv c2 := by
      have hx := clientInv_initialize_server n
        { c with servers := dictInsert c.servers n ⟨p, cmd, cfg.args, Json.arr [], false⟩ } h
      rw [hin] at hx; exact hx
    cases ri with
    | error e => exact h2
    | ok u => exact h2

theorem clientInv_call_tool (s t : String) (a : Json) (c : MCPClient) (h : ClientInv c) :
    ClientInv (call_tool s t a c).2 := by
  unfold call_tool
  cases hl : dictLookup c.servers s with
  | none => exact h
  | some sv =>
    simp only []
    cases hn : toolNamesOf sv.availableTools with
    | error e => exact h
    | ok names =>
      simp only []
      by_cases hm : namesContain names t = true
      · rw [if_pos hm]
        simp only [next_request_id]
        rcases hs : send_request s (toolsCallRequest (c.request_id + 1) t a)
            { c with request_id := c.request_id + 1 } with ⟨r, c2⟩
        have h2 : ClientInv c2 := by
          have hx := clientInv_send_fresh c s (toolsCallRequest (c.request_id + 1) t a) h rfl
          rw [hs] at hx; exact hx
        cases r with
        | error e => exact h2
        | ok resp =>
          simp only []
          repeat' split
          all_goals exact h2
      · rw [if_neg hm]
        exact h

theorem clientInv_runOp (c : MCPClient) (op : ClientOp) (h : ClientInv c) :
    ClientInv (runOp c op) := by
  cases op with
  | connectOp n cmd cfg sp => exact clientInv_connect_server n cmd cfg sp c h
  | callToolOp s t a => exact clientInv_call_tool s t a c h
  | disconnectAllOp => exact h

theorem clientInv_runOps (ops : List ClientOp) (c : MCPClient) (h : ClientInv c) :
    ClientInv (runOps ops c) := by
  induction ops generalizing c with
  | nil => exact h
  | cons op rest ih => exact ih (runOp c op) (clientInv_runOp c op h)

/-- C2: disconnect_all leaves the registry empty, processes every server
(one report per entry, in order), and an exception raised by the shutdown of
one server is caught and turned into a printed report, never propagated
(the operation is total and still clears the map). -/
theorem c2_disconnect_all_clears (c : MCPClient) :
    (disconnect_all c).1.servers = [] ∧
    ((disconnect_all c).2.map (fun r => r.name)) = c.servers.map (fun e => e.1) ∧
    (∀ n sv, (n, sv) ∈ c.servers →
      ∀ m, (shutdownOne gracefulTimeoutMs sv.process).1 = Except.error m →
        ({ name := n, actions := (shutdownOne gracefulTimeoutMs sv.process).2,
           errorPrinted := some (disconnectErrMsg n m) } : ShutdownReport)
          ∈ (disconnect_all c).2) := by
  refine ⟨rfl, ?_, ?_⟩
  · unfold disconnect_all
    rw [List.map_map]
    rfl
  · intro n sv hm m herr
    have hrep : shutdownReportOf gracefulTimeoutMs n sv
        = { name := n, actions := (shutdownOne gracefulTimeoutMs sv.process).2,
            errorPrinted := some (disconnectErrMsg n m) } := by
      unfold shutdownReportOf
      rw [herr]
    rw [← hrep]
    exact List.mem_map.mpr ⟨(n, sv), hm, rfl⟩

def c2goodEntry : ServerEntry :=
  { process := {}, command := "g", args := [], availableTools := Json.arr [],
    handshakeOk := true }

def c2badEntry : ServerEntry :=
  { process := { closeRaises := some "boom" }, command := "b", args := [],
    availableTools := Json.arr [], handshakeOk := true }

def c2demo : MCPClient :=
  { servers := [("good", c2goodEntry), ("bad", c2badEntry)], request_id := 4, sentLog := [] }

theorem c2_witness :
    (disconnect_all c2demo).1.servers = [] ∧
    ({ name := "bad", actions := [ShutdownAction.closeStdin],
       errorPrinted := some (disconnectErrMsg "bad" "boom") } : ShutdownReport)
      ∈ (disconnect_all c2demo).2 := by
  obtain ⟨h1, _, h3⟩ := c2_disconnect_all_clears c2demo
  refine ⟨h1, ?_⟩
  exact h3 "bad" c2badEntry
    (List.mem_cons_of_mem _ (List.mem_cons_self _ _)) "boom" rfl

/-- C7: the per-server step of disconnect_all (shutdownOne, invoked by
disconnect_all on each entry) closes stdin first and waits up to the
2 second window; only when the process has not exited within the window does
it terminate, after which it waits unconditionally; a process that exits
within the window is never sent the termination signal. -/
theorem c7_graceful_then_forced (p : ProcessState)
    (hstdin : p.stdinExists = true) (hc : p.closeRaises = none)
    (ht : p.terminateRaises = none) :
    ((exitsWithin gracefulTimeoutMs p = true →
        (shutdownOne gracefulTimeoutMs p).2
          = [ShutdownAction.closeStdin, ShutdownAction.waitedTimeout]) ∧
     (exitsWithin gracefulTimeoutMs p = false →
        (shutdownOne gracefulTimeoutMs p).2
          = [ShutdownAction.closeStdin, ShutdownAction.waitedTimeout,
             ShutdownAction.terminated, ShutdownAction.waitedFinal])) ∧
    (∀ q : ProcessState, exitsWithin gracefulTimeoutMs q = true →
      ShutdownAction.terminated ∉ (shutdownOne gracefulTimeoutMs q).2) ∧
    (∀ c : MCPClient, ∀ n sv, (n, sv) ∈ c.servers →
      shutdownReportOf gracefulTimeoutMs n sv ∈ (disconnect_all c).2 ∧
      (shutdownReportOf gracefulTimeoutMs n sv).actions
        = (shutdownOne gracefulTimeoutMs sv.process).2) := by
  refine ⟨⟨?_, ?_⟩, ?_, ?_⟩
  · intro hex
    simp [shutdownOne, hstdin, hc, hex]
  · intro hex
    simp [shutdownOne, hstdin, hc, ht, hex]
  · intro q hex
    simp only [shutdownOne, hex, if_true]
    cases hqs : q.stdinExists <;> cases hcr : q.closeRaises <;> simp
  · intro c n sv hm
    exact ⟨List.mem_map.mpr ⟨(n, sv), hm, rfl⟩, rfl⟩

theorem c7_witness :
    (shutdownOne gracefulTimeoutMs ({} : ProcessState)).2
      = [ShutdownAction.closeStdin, ShutdownAction.waitedTimeout] :=
  (c7_graceful_then_forced {} rfl rfl rfl).1.1 rfl

/-- C8 (amended): is_connected returns false when the name is absent, and
otherwise returns true exactly when the process has not exited; it performs
no status or readiness check beyond that. -/
theorem c8_is_connected_no_status (server_name : String) (c : MCPClient) :
    is_connected server_name c = true ↔
      ∃ e, dictLookup c.servers server_name = some e ∧ e.process.returncode = none := by
  unfold is_connected
  cases hl : dictLookup c.servers server_name with
  | none => simp
  | some e =>
    simp only []
    constructor
    · intro h
      exact ⟨e, rfl, by simpa [Option.isNone_iff_eq_none] using h⟩
    · rintro ⟨e2, he2, hrc⟩
      injection he2 with he2x
      subst he2x
      rw [hrc]
      rfl

theorem c8_witness :
    is_connected "z" emptyMCP = true ↔
      ∃ e, dictLookup emptyMCP.servers "z" = some e ∧ e.process.returncode = none :=
  c8_is_connected_no_status "z" emptyMCP

def c8client : MCPClient :=
  (connect_server "a" "cmd" {} (Except.ok ({} : ProcessState)) emptyMCP).2

/-- C8 counterexample: a connect whose peer script is empty fails the
handshake (the initialize read hits end of file); the entry remains with a
live process, so is_connected reports true, although the connection never
reached Ready (it is Failed per the specification state machine: the ghost
handshake flag is false, so readiness as the spec words it is false). -/
theorem c8_cx :
    is_connected "a" c8client = true ∧
    isConnectedSpec "a" c8client = false ∧
    exceptIsError (connect_server "a" "cmd" {} (Except.ok ({} : ProcessState)) emptyMCP).1
      = true :=
  ⟨rfl, rfl, rfl⟩

/-- C10: a call_tool that fails because the server name is unknown or the
tool name is not in the available list fails before anything is built or
sent: the returned state is the input state unchanged, in particular the
request counter is unchanged and nothing was appended to the write log. -/
theorem c10_fail_before_send (s t : String) (a : Json) (c : MCPClient)
    (h : dictLookup c.servers s = none ∨
      ∃ sv names, dictLookup c.servers s = some sv ∧
        toolNamesOf sv.availableTools = Except.ok names ∧
        namesContain names t = false) :
    (call_tool s t a c).2 = c ∧
    exceptIsError (call_tool s t a c).1 = true ∧
    (call_tool s t a c).2.request_id = c.request_id ∧
    (call_tool s t a c).2.sentLog = c.sentLog := by
  have hmain : (call_tool s t a c).2 = c ∧ exceptIsError (call_tool s t a c).1 = true := by
    unfold call_tool
    rcases h with hnone | ⟨sv, names, hsv, hn, hm⟩
    · rw [hnone]
      exact ⟨rfl, rfl⟩
    · simp only [hsv, hn]
      rw [if_neg (by simp [hm])]
      exact ⟨rfl, rfl⟩
  exact ⟨hmain.1, hmain.2, by rw [hmain.1], by rw [hmain.1]⟩

theorem c10_witness :
    (call_tool "zz" "t" (Json.obj []) emptyMCP).2 = emptyMCP ∧
    exceptIsError (call_tool "zz" "t" (Json.obj []) emptyMCP).1 = true ∧
    (call_tool "zz" "t" (Json.obj []) emptyMCP).2.request_id = emptyMCP.request_id ∧
    (call_tool "zz" "t" (Json.obj []) emptyMCP).2.sentLog = emptyMCP.sentLog :=
  c10_fail_before_send "zz" "t" (Json.obj []) emptyMCP (Or.inl rfl)

/-- C4: call_tool on a tool name that is not in the discovered list
(membership decided by exact, case-sensitive string equality, stated by the
last conjunct) fails with the tool-unavailable message, and that message
carries every tool name currently known for the server. -/
theorem c4_tool_unavailable_message (s t : String) (a : Json) (c : MCPClient)
    (sv : ServerEntry) (names : List (Option Json))
    (hs : dictLookup c.servers s = some sv)
    (hn : toolNamesOf sv.availableTools = Except.ok names)
    (hm : namesContain names t = false) :
    (call_tool s t a c).1 = Except.error (toolUnavailableMsg t s names) ∧
    (∀ nm : String, some (Json.str nm) ∈ names →
      ContainsSubstr (toolUnavailableMsg t s names) nm) ∧
    (∀ x : String, namesContain names x = true ↔ some (Json.str x) ∈ names) := by
  refine ⟨?_, ?_, ?_⟩
  · unfold call_tool
    simp only [hs, hn, hm]
    rw [if_neg (by simp)]
  · intro nm hmem
    exact toolUnavailableMsg_contains t s names nm hmem
  · intro x
    exact namesContain_iff names x

def c4entry : ServerEntry :=
  { process := {}, command := "cmd", args := [],
    availableTools := Json.arr [Json.obj [("name", Json.str "get_events")],
                                Json.obj [("name", Json.str "get_contacts")]],
    handshakeOk := true }

def c4client : MCPClient := { servers := [("cal", c4entry)], request_id := 2, sentLog := [] }

theorem c4_witness :
    (call_tool "cal" "nope" (Json.obj []) c4client).1
      = Except.error (toolUnavailableMsg "nope" "cal"
          [some (Json.str "get_events"), some (Json.str "get_contacts")]) ∧
    ContainsSubstr (toolUnavailableMsg "nope" "cal"
      [some (Json.str "get_events"), some (Json.str "get_contacts")]) "get_events" := by
  obtain ⟨h1, h2, _⟩ := c4_tool_unavailable_message "cal" "nope" (Json.obj []) c4client
    c4entry [some (Json.str "get_events"), some (Json.str "get_contacts")] rfl rfl rfl
  exact ⟨h1, h2 "get_events" (by simp)⟩

/-- C1 (amended): when a connect attempt whose spawn succeeded fails (the
handshake raised), the error is propagated, but the registry IS mutated: the
entry stored under the name before the handshake remains afterward, carrying
the new command, the args of the config, an empty tool list, and an
incomplete handshake, overwriting any previous entry under that name. -/
theorem c1_handshake_failure_mutates (name cmd : String) (cfg : MCPConfig)
    (p : ProcessState) (c : MCPClient)
    (h : exceptIsError (connect_server name cmd cfg (Except.ok p) c).1 = true) :
    ∃ e, dictLookup (connect_server name cmd cfg (Except.ok p) c).2.servers name = some e ∧
      e.command = cmd ∧ e.args = cfg.args ∧ e.availableTools = Json.arr [] ∧
      e.handshakeOk = false := by
  unfold connect_server at h ⊢
  simp only [] at h ⊢
  rcases hin : initialize_server name
      { c with servers := dictInsert c.servers name ⟨p, cmd, cfg.args, Json.arr [], false⟩ }
    with ⟨ri, c2⟩
  rw [hin] at h
  cases ri with
  | ok u => simp [exceptIsError] at h
  | error e1 =>
    obtain ⟨pr, hpr⟩ := initialize_server_entry_error name
      { c with servers := dictInsert c.servers name ⟨p, cmd, cfg.args, Json.arr [], false⟩ }
      ⟨p, cmd, cfg.args, Json.arr [], false⟩ (dictLookup_dictInsert_self c.servers name _)
      (by rw [hin]; rfl)
    rw [hin] at hpr
    exact ⟨⟨pr, cmd, cfg.args, Json.arr [], false⟩, hpr, rfl, rfl, rfl, rfl⟩

def c1oldEntry : ServerEntry :=
  { process := {}, command := "oldcmd", args := ["old"],
    availableTools := Json.arr [Json.obj [("name", Json.str "old_tool")]],
    handshakeOk := true }

def c1pre : MCPClient := { servers := [("a", c1oldEntry)], request_id := 5, sentLog := [] }

/-- C1 counterexample: connecting under an existing name against a peer with
an empty script makes the initialize read fail (connection closed by peer);
the error is propagated, but contrary to the claim the failed name IS
present in the registry afterward, and the entry that existed under the name
before the call has been overwritten (its stored tool list went from one
descriptor to the empty list). -/
theorem c1_cx :
    exceptIsError
        (connect_server "a" "newcmd" {} (Except.ok ({} : ProcessState)) c1pre).1 = true ∧
    ((dictLookup
        (connect_server "a" "newcmd" {} (Except.ok ({} : ProcessState)) c1pre).2.servers
        "a").map (fun e => e.availableTools)) = some (Json.arr []) ∧
    c1oldEntry.availableTools ≠ Json.arr [] := by
  refine ⟨rfl, rfl, ?_⟩
  intro hcontra
  simp [c1oldEntry] at hcontra

theorem c1_witness :
    ∃ e, dictLookup
        (connect_server "a" "newcmd" {} (Except.ok ({} : ProcessState)) c1pre).2.servers
        "a" = some e ∧
      e.command = "newcmd" ∧ e.args = ({} : MCPConfig).args ∧
      e.availableTools = Json.arr [] ∧ e.handshakeOk = false :=
  c1_handshake_failure_mutates "a" "newcmd" {} {} c1pre rfl

theorem send_request_read (n : String) (r : RpcRequest) (c : MCPClient) (e : ServerEntry)
    (line : Except String Json) (rest : List (Except String Json))
    (hl : dictLookup c.servers n = some e) (ho : e.process.stdinOpen = true)
    (hout : e.process.pendingOutput = line :: rest) :
    send_request n r c
      = (match line with
         | Except.error m => Except.error ("Invalid JSON response from server: " ++ m)
         | Except.ok j => Except.ok j,
         modifyServer { c with sentLog := c.sentLog ++ [(n, r)] } n
           (fun e2 => { e2 with process := { e2.process with pendingOutput := rest } })) := by
  unfold send_request
  simp only [hl, ho, if_true, hout]
  cases line <;> rfl

theorem initialize_server_two_reads (n : String) (c : MCPClient) (e : ServerEntry)
    (r1 : Json) (fs2 : List (String × Json)) (rest : List (Except String Json))
    (hl : dictLookup c.servers n = some e) (ho : e.process.stdinOpen = true)
    (hout : e.process.pendingOutput = Except.ok r1 :: Except.ok (Json.obj fs2) :: rest) :
    (dictLookupJ fs2 "result" = none →
      (initialize_server n c).1 = Except.ok () ∧
      ∃ pr, dictLookup (initialize_server n c).2.servers n = some { e with process := pr }) ∧
    (∀ rfs, dictLookupJ fs2 "result" = some (Json.obj rfs) →
      (initialize_server n c).1 = Except.ok () ∧
      ∃ pr, dictLookup (initialize_server n c).2.servers n
        = some ⟨pr, e.command, e.args,
            (dictLookupJ rfs "tools").getD e.availableTools, e.handshakeOk⟩) := by
  unfold initialize_server
  simp only [hl, next_request_id]
  rcases hs1 : send_request n (initRequest (c.request_id + 1))
      { c with request_id := c.request_id + 1 } with ⟨rr1, c2⟩
  have hs1x := send_request_read n (initRequest (c.request_id + 1))
    { c with request_id := c.request_id + 1 } e (Except.ok r1)
    (Except.ok (Json.obj fs2) :: rest) hl ho hout
  rw [hs1] at hs1x
  have hrr1 : rr1 = Except.ok r1 := congrArg Prod.fst hs1x
  have hc2 : c2 = modifyServer
      ⟨c.servers, c.request_id + 1, c.sentLog ++ [(n, initRequest (c.request_id + 1))]⟩ n
      (fun e2 => { e2 with process :=
        { e2.process with pendingOutput := Except.ok (Json.obj fs2) :: rest } }) :=
    congrArg Prod.snd hs1x
  subst hrr1
  simp only []
  have hl2 : dictLookup c2.servers n
      = some { e with process :=
          { e.process with pendingOutput := Except.ok (Json.obj fs2) :: rest } } := by
    rw [hc2]
    exact dictLookup_modifyServer_of _ n _ e hl
  rcases hs2 : send_request n (toolsListRequest (c2.request_id + 1))
      { c2 with request_id := c2.request_id + 1 } with ⟨rr2, c4⟩
  have hs2x := send_request_read n (toolsListRequest (c2.request_id + 1))
    { c2 with request_id := c2.request_id + 1 }
    { e with process := { e.process with pendingOutput := Except.ok (Json.obj fs2) :: rest } }
    (Except.ok (Json.obj fs2)) rest hl2 ho rfl
  rw [hs2] at hs2x
  have hrr2 : rr2 = Except.ok (Json.obj fs2) := congrArg Prod.fst hs2x
  have hc4 : c4 = modifyServer
      ⟨c2.servers, c2.request_id + 1, c2.sentLog ++ [(n, toolsListRequest (c2.request_id + 1))]⟩ n
      (fun e2 => { e2 with process := { e2.process with pendingOutput := rest } }) :=
    congrArg Prod.snd hs2x
  subst hrr2
  simp only []
  have hl4 : dictLookup c4.servers n
      = some { e with process := { e.process with pendingOutput := rest } } := by
    rw [hc4]
    exact dictLookup_modifyServer_of _ n _
      { e with process := { e.process with pendingOutput := Except.ok (Json.obj fs2) :: rest } }
      hl2
  refine ⟨?_, ?_⟩
  · intro hres
    have hmem : (fs2.any (fun q => q.1 == "result")) = false := by
      rw [anyKey_eq_isSome, hres]
      rfl
    simp only [pyContainsKey, hmem]
    exact ⟨by trivial, ⟨_, hl4⟩⟩
  · intro rfs hres
    have hmem : (fs2.any (fun q => q.1 == "result")) = true := by
      rw [anyKey_eq_isSome, hres]
      rfl
    simp only [pyContainsKey, hmem, pyGetItem, hres]
    cases htl : dictLookupJ rfs "tools" with
    | some tv =>
      have hmem2 : (rfs.any (fun q => q.1 == "tools")) = true := by
        rw [anyKey_eq_isSome, htl]
        rfl
      simp only [hmem2, pyGetItem, htl]
      refine ⟨by trivial, ⟨{ e.process with pendingOutput := rest }, ?_⟩⟩
      exact dictLookup_modifyServer_of c4 n (fun e2 => { e2 with availableTools := tv }) _ hl4
    | none =>
      have hmem2 : (rfs.any (fun q => q.1 == "tools")) = false := by
        rw [anyKey_eq_isSome, htl]
        rfl
      simp only [hmem2]
      exact ⟨by trivial, ⟨{ e.process with pendingOutput := rest }, hl4⟩⟩

/-- C6 (amended): when both handshake responses arrive without transport or
decode error and the tools/list response is an object, the stored tool list
equals the result.tools value when result is an object containing it, and
stays the empty list (with the handshake still succeeding) when result or
result.tools is absent; a result value that is not an object instead makes
the handshake fail, as the counterexample shows. -/
theorem c6_tools_list_storage (name cmd : String) (cfg : MCPConfig) (p : ProcessState)
    (c : MCPClient) (r1 : Json) (fs2 : List (String × Json)) (rest : List (Except String Json))
    (hopen : p.stdinOpen = true)
    (hout : p.pendingOutput = Except.ok r1 :: Except.ok (Json.obj fs2) :: rest) :
    (dictLookupJ fs2 "result" = none →
      (connect_server name cmd cfg (Except.ok p) c).1 = Except.ok () ∧
      get_available_tools name (connect_server name cmd cfg (Except.ok p) c).2
        = Except.ok (Json.arr [])) ∧
    (∀ rfs, dictLookupJ fs2 "result" = some (Json.obj rfs) →
      (connect_server name cmd cfg (Except.ok p) c).1 = Except.ok () ∧
      get_available_tools name (connect_server name cmd cfg (Except.ok p) c).2
        = Except.ok ((dictLookupJ rfs "tools").getD (Json.arr []))) := by
  unfold connect_server
  simp only []
  obtain ⟨htr1, htr2⟩ := initialize_server_two_reads name
    { c with servers := dictInsert c.servers name ⟨p, cmd, cfg.args, Json.arr [], false⟩ }
    ⟨p, cmd, cfg.args, Json.arr [], false⟩ r1 fs2 rest
    (dictLookup_dictInsert_self c.servers name _) hopen hout
  rcases hin : initialize_server name
      { c with servers := dictInsert c.servers name ⟨p, cmd, cfg.args, Json.arr [], false⟩ }
    with ⟨ri, c2⟩
  rw [hin] at htr1 htr2
  refine ⟨?_, ?_⟩
  · intro hres
    obtain ⟨hok, pr, hent⟩ := htr1 hres
    have hri : ri = Except.ok () := hok
    subst hri
    refine ⟨rfl, ?_⟩
    unfold get_available_tools
    have hent2 := dictLookup_modifyServer_of c2 name
      (fun e => { e with handshakeOk := true }) _ hent
    rw [hent2]
  · intro rfs hres
    obtain ⟨hok, pr, hent⟩ := htr2 rfs hres
    have hri : ri = Except.ok () := hok
    subst hri
    refine ⟨rfl, ?_⟩
    unfold get_available_tools
    have hent2 := dictLookup_modifyServer_of c2 name
      (fun e => { e with handshakeOk := true }) _ hent
    rw [hent2]

def c6proc : ProcessState :=
  { pendingOutput := [Except.ok (Json.obj [("jsonrpc", Json.str "2.0")]),
                      Except.ok (Json.obj [("result", Json.num 5)])] }

/-- C6 counterexample: both handshake responses are received and decode
fine, and result.tools is absent (the result value is the integer 5), so by
the claim the handshake should succeed with an empty tool list; instead the
membership test on the non-object result value raises a TypeError and the
whole connect fails. -/
theorem c6_cx :
    exceptIsError (connect_server "a" "cmd" {} (Except.ok c6proc) emptyMCP).1 = true := rfl

def c6okProc : ProcessState :=
  { pendingOutput := [Except.ok (Json.obj [("jsonrpc", Json.str "2.0"), ("id", Json.num 1),
      ("result", Json.obj [])]),
    Except.ok (Json.obj [("jsonrpc", Json.str "2.0"), ("id", Json.num 2),
      ("result", Json.obj [("tools", Json.arr [Json.obj [("name", Json.str "get_events")]])])])] }

theorem c6_witness :
    (connect_server "cal" "cmd" {} (Except.ok c6okProc) emptyMCP).1 = Except.ok () ∧
    get_available_tools "cal" (connect_server "cal" "cmd" {} (Except.ok c6okProc) emptyMCP).2
      = Except.ok (Json.arr [Json.obj [("name", Json.str "get_events")]]) := by
  obtain ⟨_, h2⟩ := c6_tools_list_storage "cal" "cmd" {} c6okProc emptyMCP
    (Json.obj [("jsonrpc", Json.str "2.0"), ("id", Json.num 1), ("result", Json.obj [])])
    [("jsonrpc", Json.str "2.0"), ("id", Json.num 2),
     ("result", Json.obj [("tools", Json.arr [Json.obj [("name", Json.str "get_events")]])])]
    [] rfl rfl
  obtain ⟨ha, hb⟩ := h2 [("tools", Json.arr [Json.obj [("name", Json.str "get_events")]])] rfl
  exact ⟨ha, hb⟩

/-- C5 (amended): for a call on an available tool whose peer reply decodes
to a JSON object, the outcome is the three-way split: a result member is
returned as the value; an error member fails with a message carrying the
remote error message; neither member returns the raw object unchanged. A
reply that is not an object can instead fail outright, as the
counterexample shows. -/
theorem c5_obj_response_cases (s t : String) (a : Json) (c : MCPClient)
    (sv : ServerEntry) (names : List (Option Json)) (fs : List (String × Json))
    (rest : List (Except String Json))
    (hs : dictLookup c.servers s = some sv)
    (hn : toolNamesOf sv.availableTools = Except.ok names)
    (hm : namesContain names t = true)
    (hopen : sv.process.stdinOpen = true)
    (hout : sv.process.pendingOutput = Except.ok (Json.obj fs) :: rest) :
    (∀ v, dictLookupJ fs "result" = some v → (call_tool s t a c).1 = Except.ok v) ∧
    (∀ efs, dictLookupJ fs "result" = none → dictLookupJ fs "error" = some (Json.obj efs) →
      (call_tool s t a c).1
        = Except.error (callToolFailMsg t s ("Tool call error: " ++ remoteMessage efs)) ∧
      (∀ m : String, dictLookupJ efs "message" = some (Json.str m) →
        ContainsSubstr (callToolFailMsg t s ("Tool call error: " ++ remoteMessage efs)) m)) ∧
    (dictLookupJ fs "result" = none → dictLookupJ fs "error" = none →
      (call_tool s t a c).1 = Except.ok (Json.obj fs)) := by
  unfold call_tool
  simp only [hs, hn]
  rw [if_pos hm]
  simp only [next_request_id]
  rcases hsr : send_request s (toolsCallRequest (c.request_id + 1) t a)
      { c with request_id := c.request_id + 1 } with ⟨rr, c2⟩
  have hsrx := send_request_read s (toolsCallRequest (c.request_id + 1) t a)
    { c with request_id := c.request_id + 1 } sv (Except.ok (Json.obj fs)) rest hs hopen hout
  rw [hsr] at hsrx
  have hrr : rr = Except.ok (Json.obj fs) := congrArg Prod.fst hsrx
  subst hrr
  simp only []
  refine ⟨?_, ?_, ?_⟩
  · intro v hres
    have hmem : (fs.any (fun q => q.1 == "result")) = true := by
      rw [anyKey_eq_isSome, hres]
      rfl
    simp only [pyContainsKey, hmem, pyGetItem, hres]
  · intro efs hres herrf
    have hmem : (fs.any (fun q => q.1 == "result")) = false := by
      rw [anyKey_eq_isSome, hres]
      rfl
    have hmem2 : (fs.any (fun q => q.1 == "error")) = true := by
      rw [anyKey_eq_isSome, herrf]
      rfl
    refine ⟨?_, ?_⟩
    · simp only [pyContainsKey, hmem, hmem2, pyGetItem, herrf]
    · intro m hmsg
      have hrm : remoteMessage efs = m := by
        unfold remoteMessage
        rw [hmsg]
        rfl
      unfold callToolFailMsg
      rw [hrm]
      exact containsSubstr_right_end _ "Tool call error: " m
  · intro hres herrf
    have hmem : (fs.any (fun q => q.1 == "result")) = false := by
      rw [anyKey_eq_isSome, hres]
      rfl
    have hmem2 : (fs.any (fun q => q.1 == "error")) = false := by
      rw [anyKey_eq_isSome, herrf]
      rfl
    simp only [pyContainsKey, hmem, hmem2]

def c5entry : ServerEntry :=
  { process := { pendingOutput := [Except.ok (Json.num 5)] }, command := "cmd", args := [],
    availableTools := Json.arr [Json.obj [("name", Json.str "t")]], handshakeOk := true }

def c5client : MCPClient := { servers := [("s", c5entry)], request_id := 2, sentLog := [] }

/-- C5 counterexample: the peer reply decodes to the bare integer 5, which
contains neither a result member nor an error member, so by the claim
call_tool should return it unchanged; instead the membership test on the
integer raises a TypeError and the call fails. -/
theorem c5_cx :
    exceptIsError (call_tool "s" "t" (Json.obj []) c5client).1 = true ∧
    (call_tool "s" "t" (Json.obj []) c5client).1 ≠ Except.ok (Json.num 5) :=
  ⟨rfl, isError_ne_ok _ _ rfl⟩

def c5okEntry : ServerEntry :=
  { process := { pendingOutput := [Except.ok (Json.obj [("jsonrpc", Json.str "2.0"),
      ("id", Json.num 3), ("result", Json.obj [("contacts", Json.arr [])])])] },
    command := "cmd", args := [],
    availableTools := Json.arr [Json.obj [("name", Json.str "get_contacts")]],
    handshakeOk := true }

def c5okClient : MCPClient := { servers := [("cal", c5okEntry)], request_id := 2, sentLog := [] }

theorem c5_witness :
    (call_tool "cal" "get_contacts" (Json.obj []) c5okClient).1
      = Except.ok (Json.obj [("contacts", Json.arr [])]) := by
  obtain ⟨h1, _, _⟩ := c5_obj_response_cases "cal" "get_contacts" (Json.obj []) c5okClient
    c5okEntry [some (Json.str "get_contacts")]
    [("jsonrpc", Json.str "2.0"), ("id", Json.num 3),
     ("result", Json.obj [("contacts", Json.arr [])])]
    [] rfl rfl rfl rfl rfl
  exact h1 (Json.obj [("contacts", Json.arr [])]) rfl

/-- C9: the request-id counter is a single field of the client shared by all
of its server connections (the embedding carries it on MCPClient); over any
operation history from a fresh client, the ids written across all servers
are strictly increasing in write order, hence globally unique; and a
connect performed once any request has been sent writes its initialize
request with the counter successor as id, strictly greater than 1 — the
counter does not restart at 1 per Connection. -/
theorem c9_global_request_ids (ops : List ClientOp) :
    List.Pairwise (· < ·) (idsOf (runOps ops emptyMCP)) ∧
    (idsOf (runOps ops emptyMCP)).Nodup ∧
    (∀ name cmd cfg p, ProcessState.stdinOpen p = true →
      idsOf (runOps ops emptyMCP) ≠ [] →
      ∃ rest,
        (connect_server name cmd cfg (Except.ok p) (runOps ops emptyMCP)).2.sentLog
          = (runOps ops emptyMCP).sentLog ++
            ((name, initRequest ((runOps ops emptyMCP).request_id + 1)) :: rest) ∧
        1 < (runOps ops emptyMCP).request_id + 1) := by
  obtain ⟨hp, hb⟩ := clientInv_runOps ops emptyMCP clientInv_empty
  refine ⟨hp, List.Pairwise.imp (fun h => Nat.ne_of_lt h) hp, ?_⟩
  intro name cmd cfg p hopen hne
  obtain ⟨rest, hrest⟩ := connect_server_log_head name cmd cfg p (runOps ops emptyMCP) hopen
  refine ⟨rest, hrest, ?_⟩
  obtain ⟨i, hi⟩ := List.exists_mem_of_ne_nil _ hne
  obtain ⟨h1, h2⟩ := hb i hi
  omega

def c9proc : ProcessState :=
  { pendingOutput := [Except.ok (Json.obj [("result", Json.obj [])]),
      Except.ok (Json.obj [("result", Json.obj [("tools", Json.arr [])])])] }

theorem c9_witness :
    (idsOf (runOps [ClientOp.connectOp "a" "cmd" {} (Except.ok c9proc)] emptyMCP)).Nodup ∧
    ∃ rest,
      (connect_server "b" "cmd" {} (Except.ok c9proc)
          (runOps [ClientOp.connectOp "a" "cmd" {} (Except.ok c9proc)] emptyMCP)).2.sentLog
        = (runOps [ClientOp.connectOp "a" "cmd" {} (Except.ok c9proc)] emptyMCP).sentLog ++
          (("b", initRequest
            ((runOps [ClientOp.connectOp "a" "cmd" {} (Except.ok c9proc)]
              emptyMCP).request_id + 1)) :: rest) ∧
      1 < (runOps [ClientOp.connectOp "a" "cmd" {} (Except.ok c9proc)]
            emptyMCP).request_id + 1 := by
  obtain ⟨_, hnd, h3⟩ :=
    c9_global_request_ids [ClientOp.connectOp "a" "cmd" {} (Except.ok c9proc)]
  exact ⟨hnd, h3 "b" "cmd" {} c9proc rfl (by decide)⟩

/-- C3 (amended): the ids carried by the requests sent through any one
Connection are strictly increasing with no duplicates; the first id the
client issues is 1 — the very first connect of a fresh client writes its
initialize request with id 1 — but a Connection opened after earlier
requests starts above 1 (see the counterexample), so only the first
Connection of a client starts at 1. -/
theorem c3_per_connection_ids (ops : List ClientOp) (name : String) :
    List.Pairwise (· < ·)
      (((runOps ops emptyMCP).sentLog.filter (fun q => q.1 == name)).map
        (fun q => q.2.id)) ∧
    (∀ n cmd cfg p, ProcessState.stdinOpen p = true →
      ∃ rest, (connect_server n cmd cfg (Except.ok p) emptyMCP).2.sentLog
        = (n, initRequest 1) :: rest) := by
  constructor
  · have hp := (clientInv_runOps ops emptyMCP clientInv_empty).1
    have hsub : List.Sublist
        (((runOps ops emptyMCP).sentLog.filter (fun q => q.1 == name)).map
          (fun q => q.2.id))
        (idsOf (runOps ops emptyMCP)) :=
      List.Sublist.map _ (List.filter_sublist _)
    exact List.Pairwise.sublist hsub hp
  · intro n cmd cfg p hopen
    obtain ⟨rest, hrest⟩ := connect_server_log_head n cmd cfg p emptyMCP hopen
    exact ⟨rest, hrest⟩

def c3proc : ProcessState :=
  { pendingOutput := [Except.ok (Json.obj [("result", Json.obj [])]),
      Except.ok (Json.obj [("result", Json.obj [("tools",
        Json.arr [Json.obj [("name", Json.str "get_events")]])])])] }

def c3client : MCPClient :=
  (connect_server "b" "cmd" {} (Except.ok c3proc)
    (connect_server "a" "cmd" {} (Except.ok c3proc) emptyMCP).2).2

/-- C3 counterexample: a fresh client connects server a successfully (the
handshake issues ids 1 and 2); connecting server b then issues ids 3 and 4.
The requests sent through the b Connection carry ids [3, 4], so the first
id issued for that Connection is 3, not 1 as the claim states. -/
theorem c3_cx :
    ((c3client.sentLog.filter (fun q => q.1 == "b")).map (fun q => q.2.id)) = [3, 4] ∧
    (3 : Nat) ≠ 1 :=
  ⟨rfl, by decide⟩

theorem c3_witness :
    List.Pairwise (· < ·)
      (((runOps [ClientOp.connectOp "a" "cmd" {} (Except.ok c3proc)]
          emptyMCP).sentLog.filter (fun q => q.1 == "a")).map (fun q => q.2.id)) ∧
    ∃ rest, (connect_server "a" "cmd" {} (Except.ok c3proc) emptyMCP).2.sentLog
      = ("a", initRequest 1) :: rest := by
  obtain ⟨h1, h2⟩ :=
    c3_per_connection_ids [ClientOp.connectOp "a" "cmd" {} (Except.ok c3proc)] "a"
  exact ⟨h1, h2 "a" "cmd" {} c3proc rfl⟩
